import Mathlib

/-!
Verification development for the Puffinfloww workflow-orchestration engine.

The repository's builder (`core/dag/builder.py`) and plugin registry
(`plugins/registry.py`) are embedded shallowly below.  Parts of the
repository that the builder calls into but whose sources are not in the
repository snapshot (the `DAG` graph class of `core/dag/graph.py`, the
parser's definition records, and the concurrent scheduler/executor) are
modelled from the specification, as marked in the doc comments of the
corresponding definitions.
-/

/-! ## Context and branch values

A state function receives an execution context (`context.set_state(key, value)`
stores a value under a key) and returns a branch result: Python `None`, a
single target name (a string), or a list of target names. -/

inductive CtxVal where
  | str (s : String)
  | cfg (c : List (String × String))
deriving DecidableEq, Repr

def Config : Type := List (String × String)
deriving DecidableEq, Repr

def Ctx : Type := List (String × CtxVal)

/-- `context.set_state(key, value)` — later writes shadow earlier ones. -/
def setState (c : Ctx) (k : String) (v : CtxVal) : Ctx := (k, v) :: c

/-- Reading a key back out of the context (most recent write wins). -/
def getState (c : Ctx) (k : String) : Option CtxVal := c.lookup k

/-- The value a state function returns: Python `None`, one target string, or a
list of target strings. -/
inductive Branch where
  | noneB
  | oneB (t : String)
  | manyB (ts : List String)
deriving DecidableEq, Repr

def StateFunc : Type := Ctx → Ctx × Branch

/-! ## Plugins (interface consumed by the builder and the registry) -/

structure PluginManifest where
  name : String
  version : String
  description : String
  states : List String

structure Plugin where
  manifest : PluginManifest
  get_state_function : String → Config → StateFunc

/-! ## Workflow definition records

Modelled from the spec: `core/dag/parser.py` (the `StateDefinition`,
`TransitionDefinition` and `WorkflowDefinition` records) is not under `src/`;
the fields below are the ones the builder reads, per spec §3 and §6. -/

structure TransitionDef where
  target : String
  condition : Option String
  metadata : List (String × String)
deriving DecidableEq, Repr

structure StateDefinition where
  name : String
  type : String
  config : List (String × String)
  transitions : List TransitionDef
  dependencies : List String
  metadata : List (String × String)
  retries : Nat
deriving DecidableEq, Repr

structure WorkflowDefinition where
  name : String
  states : List (String × StateDefinition)

/-! ## `DAGBuilder._create_state_function` (from `core/dag/builder.py`) -/

/-- The generic fallback state function of `DAGBuilder._create_state_function`:
records the state's name, type and configuration into the context, then
returns the single transition target, the list of all targets, or `None`. -/
def genericStateFunction (sd : StateDefinition) : StateFunc := fun context =>
  let c1 := setState context "state_name" (.str sd.name)
  let c2 := setState c1 "state_type" (.str sd.type)
  let c3 := setState c2 "config" (.cfg sd.config)
  match sd.transitions with
  | [] => (c3, .noneB)
  | [t] => (c3, .oneB t.target)
  | ts => (c3, .manyB (ts.map TransitionDef.target))

/-- `DAGBuilder._create_state_function`: uses the plugin's
`get_state_function(state_def.type, state_def.config)` when the config names a
plugin (`plugin_name` truthy, i.e. a non-empty string) that is registered in
the builder's plugin map; otherwise the generic fallback. -/
def create_state_function (plugins : List (String × Plugin))
    (sd : StateDefinition) : StateFunc :=
  match sd.config.lookup "plugin" with
  | none => genericStateFunction sd
  | some pn =>
    if pn == "" then genericStateFunction sd
    else
      match plugins.lookup pn with
      | some plugin => plugin.get_state_function sd.type sd.config
      | none => genericStateFunction sd

/-- The condition under which `_create_state_function` takes the plugin
branch: the config carries a truthy plugin name that is registered. -/
def usable_plugin (plugins : List (String × Plugin)) (sd : StateDefinition) : Bool :=
  match sd.config.lookup "plugin" with
  | none => false
  | some pn => !(pn == "") && (plugins.lookup pn).isSome

theorem create_eq_generic (plugins : List (String × Plugin)) (sd : StateDefinition)
    (h : usable_plugin plugins sd = false) :
    create_state_function plugins sd = genericStateFunction sd := by
  unfold create_state_function
  unfold usable_plugin at h
  cases hl : sd.config.lookup "plugin" with
  | none => rfl
  | some pn =>
    rw [hl] at h
    by_cases he : pn == ""
    · simp [he]
    · simp only [he, Bool.not_false, Bool.true_and] at h ⊢
      cases hp : plugins.lookup pn with
      | none => simp [he]
      | some p => rw [hp] at h; simp at h

/-- Claim C1: for every state definition dispatched without a usable plugin,
the generic fallback callable records the state's name, type and configuration
into the context and returns the single transition's target when exactly one
transition is declared, the list of all declared transition targets when more
than one is declared, and `None` when no transitions are declared. -/
theorem claim_C1 (plugins : List (String × Plugin)) (sd : StateDefinition)
    (context : Ctx) (h : usable_plugin plugins sd = false) :
    getState (create_state_function plugins sd context).fst "state_name"
        = some (.str sd.name)
    ∧ getState (create_state_function plugins sd context).fst "state_type"
        = some (.str sd.type)
    ∧ getState (create_state_function plugins sd context).fst "config"
        = some (.cfg sd.config)
    ∧ (sd.transitions = [] → (create_state_function plugins sd context).snd = .noneB)
    ∧ (∀ t, sd.transitions = [t] →
        (create_state_function plugins sd context).snd = .oneB t.target)
    ∧ (∀ t₁ t₂ ts, sd.transitions = t₁ :: t₂ :: ts →
        (create_state_function plugins sd context).snd
          = .manyB (sd.transitions.map TransitionDef.target)) := by
  rw [create_eq_generic plugins sd h]
  cases htr : sd.transitions with
  | nil =>
    refine ⟨?_, ?_, ?_, ?_, ?_, ?_⟩ <;>
      simp [genericStateFunction, htr, setState, getState, List.lookup]
  | cons t₁ rest =>
    cases rest with
    | nil =>
      refine ⟨?_, ?_, ?_, ?_, ?_, ?_⟩ <;>
        simp [genericStateFunction, htr, setState, getState, List.lookup]
    | cons t₂ ts =>
      refine ⟨?_, ?_, ?_, ?_, ?_, ?_⟩ <;>
        simp [genericStateFunction, htr, setState, getState, List.lookup]

def sdWitness : StateDefinition :=
  { name := "fetch", type := "task", config := [("url", "x")],
    transitions := [⟨"parse", none, []⟩, ⟨"log", none, []⟩],
    dependencies := [], metadata := [], retries := 0 }

theorem claim_C1_witness :
    usable_plugin [] sdWitness = false
    ∧ (getState (create_state_function [] sdWitness [] ).fst "state_name"
        = some (.str sdWitness.name)
      ∧ getState (create_state_function [] sdWitness [] ).fst "state_type"
        = some (.str sdWitness.type)
      ∧ getState (create_state_function [] sdWitness [] ).fst "config"
        = some (.cfg sdWitness.config)
      ∧ (sdWitness.transitions = [] →
          (create_state_function [] sdWitness [] ).snd = .noneB)
      ∧ (∀ t, sdWitness.transitions = [t] →
          (create_state_function [] sdWitness [] ).snd = .oneB t.target)
      ∧ (∀ t₁ t₂ ts, sdWitness.transitions = t₁ :: t₂ :: ts →
          (create_state_function [] sdWitness [] ).snd
            = .manyB (sdWitness.transitions.map TransitionDef.target))) :=
  ⟨rfl, claim_C1 [] sdWitness [] rfl⟩

/-- A state whose configuration names a plugin that is not registered. -/
def sdMissingPlugin : StateDefinition :=
  { name := "s1", type := "task", config := [("plugin", "missing")],
    transitions := [], dependencies := [], metadata := [], retries := 0 }

/-- Claim C3 counterexample: this node's configuration carries a plugin
reference (`"missing"`), yet `_create_state_function` returns the generic
fallback (there is no registered plugin to obtain a callable from), refuting
"dispatch obtains the node's callable from that plugin's capability, not from
the generic fallback" for every node carrying a plugin reference. -/
theorem claim_C3_counterexample :
    sdMissingPlugin.config.lookup "plugin" = some "missing"
    ∧ (List.lookup "missing" ([] : List (String × Plugin))) = none
    ∧ create_state_function [] sdMissingPlugin = genericStateFunction sdMissingPlugin :=
  ⟨rfl, rfl, rfl⟩

/-- Claim C3 (amended): for every node whose configuration carries a non-empty
plugin reference that is registered in the builder's plugin map, dispatch
obtains the node's callable from that plugin's capability via
`get_state_function(step_type, config)`, not from the generic fallback. -/
theorem claim_C3 (plugins : List (String × Plugin)) (sd : StateDefinition)
    (pn : String) (p : Plugin)
    (h1 : sd.config.lookup "plugin" = some pn)
    (h2 : (pn == "") = false)
    (h3 : plugins.lookup pn = some p) :
    create_state_function plugins sd = p.get_state_function sd.type sd.config := by
  unfold create_state_function
  rw [h1]
  simp [h2, h3]

def pluginEcho : Plugin :=
  { manifest := ⟨"echo", "1.0", "echo plugin", ["say"]⟩,
    get_state_function := fun _ _ => fun context => (context, .oneB "done") }

def sdEcho : StateDefinition :=
  { name := "s2", type := "say", config := [("plugin", "echo")],
    transitions := [], dependencies := [], metadata := [], retries := 0 }

theorem claim_C3_witness :
    create_state_function [("echo", pluginEcho)] sdEcho
      = pluginEcho.get_state_function sdEcho.type sdEcho.config :=
  claim_C3 [("echo", pluginEcho)] sdEcho "echo" pluginEcho rfl rfl rfl

/-! ## The graph model

Modelled from the spec: `core/dag/graph.py` (the `DAG`, `DAGNode`, `DAGEdge`
classes and the structural errors) is not under `src/`.  Per spec §3 and §4.1:
edges carry an explicit kind (`precedence` or `transition`); `add_node` fails
on a duplicate id; `add_edge` fails when an endpoint is missing; `get_edges`
filters the edge set; `validate` fails with a cycle error when the precedence
subgraph is cyclic and with a dangling-edge error when an edge references a
missing node. -/

inductive BuildError where
  | duplicateNode
  | danglingEdge
  | cycleError
deriving DecidableEq, Repr

inductive EdgeKind where
  | precedence
  | transition
deriving DecidableEq, Repr

structure DAGEdge where
  source : String
  target : String
  kind : EdgeKind
  condition : Option String
  metadata : List (String × String)
deriving DecidableEq, Repr

structure DAGNode where
  id : String
  data : StateDefinition
  metadata : List (String × Option String)
deriving DecidableEq, Repr

structure DAG where
  name : String
  nodes : List DAGNode
  edges : List DAGEdge
deriving DecidableEq, Repr

def DAG.has_node (g : DAG) (i : String) : Bool := g.nodes.any (fun n => n.id == i)

def DAG.add_node (g : DAG) (n : DAGNode) : Except BuildError DAG :=
  if g.has_node n.id then .error .duplicateNode
  else .ok { g with nodes := g.nodes ++ [n] }

def DAG.add_edge (g : DAG) (e : DAGEdge) : Except BuildError DAG :=
  if g.has_node e.source && g.has_node e.target then
    .ok { g with edges := g.edges ++ [e] }
  else .error .danglingEdge

/-- `dag.get_edges(source=..., target=...)` as called by the builder. -/
def DAG.get_edges (g : DAG) (src tgt : String) : List DAGEdge :=
  g.edges.filter (fun e => e.source == src && e.target == tgt)

def DAG.dangling_free (g : DAG) : Bool :=
  g.edges.all (fun e => g.has_node e.source && g.has_node e.target)

def DAG.prec_pairs (g : DAG) : List (String × String) :=
  (g.edges.filter (fun e => e.kind == EdgeKind.precedence)).map
    (fun e => (e.source, e.target))

/-- One round of Kahn's algorithm: keep only the nodes that still have an
incoming precedence edge from a remaining node. -/
def peel_step (es : List (String × String)) (rem : List String) : List String :=
  rem.filter (fun n => es.any (fun e => e.2 == n && rem.contains e.1))

def peel_iter (es : List (String × String)) : Nat → List String → List String
  | 0, rem => rem
  | k + 1, rem => peel_iter es k (peel_step es rem)

/-- Kahn-style cycle detection on the precedence subgraph: after peeling
`|nodes|` times, any remaining node lies on (or behind) a precedence cycle. -/
def DAG.has_cycle (g : DAG) : Bool :=
  !(peel_iter g.prec_pairs g.nodes.length (g.nodes.map DAGNode.id)).isEmpty

def DAG.validate (g : DAG) : Except BuildError Unit :=
  if !g.dangling_free then .error .danglingEdge
  else if g.has_cycle then .error .cycleError
  else .ok ()

/-! ## `DAGBuilder.build_from_definition` (from `core/dag/builder.py`) -/

/-- The node the builder creates for one state. -/
def node_of_state (s : String) (st : StateDefinition) : DAGNode :=
  { id := s, data := st,
    metadata := [("label", some ((st.metadata.lookup "label").getD s)),
                 ("type", some st.type),
                 ("plugin", st.config.lookup "plugin")] }

/-- The edge the builder creates for one declared transition of state `s`. -/
def trans_edge (s : String) (t : TransitionDef) : DAGEdge :=
  { source := s, target := t.target, kind := .transition,
    condition := t.condition, metadata := t.metadata }

/-- The edge the builder creates for one declared dependency `d` of state `s`. -/
def dep_edge (d s : String) : DAGEdge :=
  { source := d, target := s, kind := .precedence,
    condition := none, metadata := [("type", "dependency")] }

def add_workflow_nodes : DAG → List (String × StateDefinition) → Except BuildError DAG
  | g, [] => .ok g
  | g, (s, st) :: rest =>
    (g.add_node (node_of_state s st)).bind (fun g1 => add_workflow_nodes g1 rest)

def add_state_transitions (s : String) : DAG → List TransitionDef → Except BuildError DAG
  | g, [] => .ok g
  | g, t :: ts =>
    (g.add_edge (trans_edge s t)).bind (fun g1 => add_state_transitions s g1 ts)

def add_transition_edges : DAG → List (String × StateDefinition) → Except BuildError DAG
  | g, [] => .ok g
  | g, (s, st) :: rest =>
    (add_state_transitions s g st.transitions).bind (fun g1 => add_transition_edges g1 rest)

/-- Dependency edges for one state: each declared dependency is emitted as a
precedence edge only if no edge between that pair exists yet in the graph. -/
def add_state_deps (s : String) : DAG → List String → Except BuildError DAG
  | g, [] => .ok g
  | g, d :: ds =>
    if (g.get_edges d s).isEmpty then
      (g.add_edge (dep_edge d s)).bind (fun g1 => add_state_deps s g1 ds)
    else add_state_deps s g ds

def add_dependency_edges : DAG → List (String × StateDefinition) → Except BuildError DAG
  | g, [] => .ok g
  | g, (s, st) :: rest =>
    (add_state_deps s g st.dependencies).bind (fun g1 => add_dependency_edges g1 rest)

/-- The three construction phases of `DAGBuilder.build_from_definition`:
add every state's node, then every transition edge, then the deduplicated
dependency edges. -/
def assemble_dag (wf : WorkflowDefinition) : Except BuildError DAG :=
  (add_workflow_nodes ⟨wf.name, [], []⟩ wf.states).bind (fun g1 =>
    (add_transition_edges g1 wf.states).bind (fun g2 =>
      add_dependency_edges g2 wf.states))

/-- `DAGBuilder.build_from_definition`: assemble the graph, run
`dag.validate()`, and return the graph. -/
def build_from_definition (wf : WorkflowDefinition) : Except BuildError DAG :=
  (assemble_dag wf).bind (fun dag => dag.validate.bind (fun _ => .ok dag))

/-! ## Structural lemmas about the builder phases -/

theorem bind_ok_iff {α β γ : Type} (x : Except α β) (f : β → Except α γ) (c : γ) :
    x.bind f = .ok c ↔ ∃ b, x = .ok b ∧ f b = .ok c := by
  cases x <;> simp [Except.bind]

theorem add_node_ok {g g' : DAG} {n : DAGNode} (h : g.add_node n = .ok g') :
    g' = { g with nodes := g.nodes ++ [n] } := by
  unfold DAG.add_node at h
  by_cases hc : g.has_node n.id
  · simp [hc] at h
  · simp [hc] at h; exact h.symm

theorem add_edge_ok {g g' : DAG} {e : DAGEdge} (h : g.add_edge e = .ok g') :
    g' = { g with edges := g.edges ++ [e] } := by
  unfold DAG.add_edge at h
  by_cases hc : (g.has_node e.source && g.has_node e.target) = true
  · simp [hc] at h; exact h.symm
  · simp [hc] at h

theorem add_workflow_nodes_edges :
    ∀ (states : List (String × StateDefinition)) (g g' : DAG),
    add_workflow_nodes g states = .ok g' → g'.edges = g.edges := by
  intro states
  induction states with
  | nil => intro g g' h; simp [add_workflow_nodes] at h; rw [← h]
  | cons p rest ih =>
    intro g g' h
    obtain ⟨s, st⟩ := p
    rw [add_workflow_nodes, bind_ok_iff] at h
    obtain ⟨g1, hadd, hrec⟩ := h
    rw [ih g1 g' hrec, add_node_ok hadd]

/-- All the transition edges `build_from_definition` emits, in emission
order: one per declared transition of each state. -/
def trans_edges_of : List (String × StateDefinition) → List DAGEdge
  | [] => []
  | (s, st) :: rest => st.transitions.map (trans_edge s) ++ trans_edges_of rest

theorem add_state_transitions_ok (s : String) :
    ∀ (ts : List TransitionDef) (g g' : DAG),
    add_state_transitions s g ts = .ok g' →
    g'.nodes = g.nodes ∧ g'.edges = g.edges ++ ts.map (trans_edge s) := by
  intro ts
  induction ts with
  | nil => intro g g' h; simp [add_state_transitions] at h; rw [← h]; simp
  | cons t ts ih =>
    intro g g' h
    rw [add_state_transitions, bind_ok_iff] at h
    obtain ⟨g1, hadd, hrec⟩ := h
    obtain ⟨hn, he⟩ := ih g1 g' hrec
    rw [add_edge_ok hadd] at hn he
    exact ⟨hn, by rw [he]; simp⟩

theorem add_transition_edges_ok :
    ∀ (states : List (String × StateDefinition)) (g g' : DAG),
    add_transition_edges g states = .ok g' →
    g'.nodes = g.nodes ∧ g'.edges = g.edges ++ trans_edges_of states := by
  intro states
  induction states with
  | nil => intro g g' h; simp [add_transition_edges] at h; rw [← h]; simp [trans_edges_of]
  | cons p rest ih =>
    intro g g' h
    obtain ⟨s, st⟩ := p
    rw [add_transition_edges, bind_ok_iff] at h
    obtain ⟨g1, hadd, hrec⟩ := h
    obtain ⟨hn1, he1⟩ := add_state_transitions_ok s st.transitions g g1 hadd
    obtain ⟨hn2, he2⟩ := ih g1 g' hrec
    refine ⟨by rw [hn2, hn1], ?_⟩
    rw [he2, he1, trans_edges_of]
    simp

/-- Two edges relate distinct (source, target) pairs. -/
def diff_pair (a b : DAGEdge) : Prop := a.source ≠ b.source ∨ a.target ≠ b.target

theorem get_edges_empty {g : DAG} {d s : String}
    (h : (g.get_edges d s).isEmpty = true) :
    ∀ e₀ ∈ g.edges, diff_pair e₀ (dep_edge d s) := by
  intro e₀ hmem
  have hnil : g.get_edges d s = [] := by
    cases hge : g.get_edges d s with
    | nil => rfl
    | cons a l => rw [hge] at h; simp [List.isEmpty] at h
  unfold DAG.get_edges at hnil
  rw [List.filter_eq_nil_iff] at hnil
  have := hnil e₀ hmem
  simp only [Bool.and_eq_true, beq_iff_eq, not_and] at this
  unfold diff_pair dep_edge
  by_cases hs : e₀.source = d
  · exact Or.inr (this hs)
  · exact Or.inl hs

theorem get_edges_nonempty {g : DAG} {d s : String}
    (h : (g.get_edges d s).isEmpty = false) :
    ∃ e ∈ g.edges, e.source = d ∧ e.target = s := by
  cases hge : g.get_edges d s with
  | nil => rw [hge] at h; simp [List.isEmpty] at h
  | cons a l =>
    have ha : a ∈ g.get_edges d s := by rw [hge]; exact List.mem_cons_self a l
    unfold DAG.get_edges at ha
    have := List.mem_filter.mp ha
    simp only [Bool.and_eq_true, beq_iff_eq] at this
    exact ⟨a, this.1, this.2⟩

theorem add_state_deps_ok (s : String) :
    ∀ (ds : List String) (g g' : DAG),
    add_state_deps s g ds = .ok g' →
    ∃ new, g'.edges = g.edges ++ new
      ∧ g'.nodes = g.nodes
      ∧ (∀ e ∈ new, ∃ d, d ∈ ds ∧ e = dep_edge d s)
      ∧ (∀ e ∈ new, ∀ e₀ ∈ g.edges, diff_pair e₀ e)
      ∧ new.Pairwise diff_pair
      ∧ (∀ d ∈ ds, ∃ e ∈ g'.edges, e.source = d ∧ e.target = s) := by
  intro ds
  induction ds with
  | nil =>
    intro g g' h
    simp [add_state_deps] at h
    exact ⟨[], by rw [← h]; simp, by rw [← h], by simp, by simp, List.Pairwise.nil, by simp⟩
  | cons d ds ih =>
    intro g g' h
    rw [add_state_deps] at h
    cases hemp : (g.get_edges d s).isEmpty with
    | true =>
      rw [hemp, if_pos rfl, bind_ok_iff] at h
      obtain ⟨g1, hadd, hrec⟩ := h
      have hg1 := add_edge_ok hadd
      obtain ⟨new', he', hn', hdesc', hfresh', hpw', hex'⟩ := ih g1 g' hrec
      subst hg1
      refine ⟨dep_edge d s :: new', ?_, ?_, ?_, ?_, ?_, ?_⟩
      · rw [he']; simp
      · rw [hn']
      · intro e hmem
        rcases List.mem_cons.mp hmem with heq | hmem'
        · exact ⟨d, List.mem_cons_self d ds, heq⟩
        · obtain ⟨d', hd', heq⟩ := hdesc' e hmem'
          exact ⟨d', List.mem_cons_of_mem d hd', heq⟩
      · intro e hmem e₀ hmem₀
        rcases List.mem_cons.mp hmem with heq | hmem'
        · rw [heq]; exact get_edges_empty hemp e₀ hmem₀
        · exact hfresh' e hmem' e₀ (by simp [hmem₀])
      · refine List.Pairwise.cons ?_ hpw'
        intro e' hmem'
        exact hfresh' e' hmem' (dep_edge d s) (by simp)
      · intro d' hd'
        rcases List.mem_cons.mp hd' with heq | hmem'
        · exact ⟨dep_edge d s, by rw [he']; simp, by rw [heq]; exact rfl, rfl⟩
        · exact hex' d' hmem'
    | false =>
      rw [hemp, if_neg (by decide)] at h
      obtain ⟨new, he, hn, hdesc, hfresh, hpw, hex⟩ := ih g g' h
      refine ⟨new, he, hn, ?_, hfresh, hpw, ?_⟩
      · intro e hmem
        obtain ⟨d', hd', heq⟩ := hdesc e hmem
        exact ⟨d', List.mem_cons_of_mem d hd', heq⟩
      · intro d' hd'
        rcases List.mem_cons.mp hd' with heq | hmem'
        · obtain ⟨e, hmem, hsrc, htgt⟩ := get_edges_nonempty hemp
          exact ⟨e, by rw [he]; simp [hmem], by rw [heq]; exact hsrc, htgt⟩
        · exact hex d' hmem'

theorem add_dependency_edges_ok :
    ∀ (states : List (String × StateDefinition)) (g g' : DAG),
    add_dependency_edges g states = .ok g' →
    ∃ new, g'.edges = g.edges ++ new
      ∧ (∀ e ∈ new, e.kind = .precedence
          ∧ ∃ p, p ∈ states ∧ e.target = p.1 ∧ e.source ∈ p.2.dependencies)
      ∧ (∀ e ∈ new, ∀ e₀ ∈ g.edges, diff_pair e₀ e)
      ∧ new.Pairwise diff_pair
      ∧ (∀ p ∈ states, ∀ d ∈ p.2.dependencies,
          ∃ e ∈ g'.edges, e.source = d ∧ e.target = p.1) := by
  intro states
  induction states with
  | nil =>
    intro g g' h
    simp [add_dependency_edges] at h
    exact ⟨[], by rw [← h]; simp, by simp, by simp, List.Pairwise.nil, by simp⟩
  | cons p rest ih =>
    intro g g' h
    obtain ⟨s, st⟩ := p
    rw [add_dependency_edges, bind_ok_iff] at h
    obtain ⟨g1, hdep, hrec⟩ := h
    obtain ⟨new1, he1, hn1, hdesc1, hfresh1, hpw1, hex1⟩ :=
      add_state_deps_ok s st.dependencies g g1 hdep
    obtain ⟨new2, he2, hdesc2, hfresh2, hpw2, hex2⟩ := ih g1 g' hrec
    refine ⟨new1 ++ new2, ?_, ?_, ?_, ?_, ?_⟩
    · rw [he2, he1, List.append_assoc]
    · intro e hmem
      rcases List.mem_append.mp hmem with h1 | h2
      · obtain ⟨d, hd, heq⟩ := hdesc1 e h1
        refine ⟨by rw [heq]; rfl, ⟨(s, st), List.mem_cons_self _ _, by rw [heq]; exact rfl, ?_⟩⟩
        rw [heq]
        exact hd
      · obtain ⟨hk, q, hq, ht, hs⟩ := hdesc2 e h2
        exact ⟨hk, q, List.mem_cons_of_mem _ hq, ht, hs⟩
    · intro e hmem e₀ hmem₀
      rcases List.mem_append.mp hmem with h1 | h2
      · exact hfresh1 e h1 e₀ hmem₀
      · exact hfresh2 e h2 e₀ (by rw [he1]; exact List.mem_append_left _ hmem₀)
    · rw [List.pairwise_append]
      refine ⟨hpw1, hpw2, ?_⟩
      intro a ha b hb
      exact hfresh2 b hb a (by rw [he1]; exact List.mem_append_right _ ha)
    · intro q hq d hd
      rcases List.mem_cons.mp hq with heq | hmem'
      · obtain ⟨e, hmem, hsrc, htgt⟩ := hex1 d (by rw [heq] at hd; exact hd)
        refine ⟨e, by rw [he2]; exact List.mem_append_left _ hmem, hsrc, ?_⟩
        rw [heq]
        exact htgt
      · exact hex2 q hmem' d hd

/-- Claim C2: `build_from_definition` emits one transition edge per declared
transition of each state; each declared dependency `(dep, state)` yields a
precedence edge exactly when no edge between that pair existed at that point
(so every declared dependency ends up covered by some edge between the pair),
and duplicate precedence edges between the same (source, target) pair are
never emitted. -/
theorem claim_C2 (wf : WorkflowDefinition) (dag : DAG)
    (h : build_from_definition wf = .ok dag) :
    ∃ deps, dag.edges = trans_edges_of wf.states ++ deps
      ∧ (∀ e ∈ deps, e.kind = .precedence
          ∧ ∃ p, p ∈ wf.states ∧ e.target = p.1 ∧ e.source ∈ p.2.dependencies)
      ∧ (∀ e ∈ deps, ∀ e₀ ∈ trans_edges_of wf.states, diff_pair e₀ e)
      ∧ deps.Pairwise diff_pair
      ∧ (∀ p ∈ wf.states, ∀ d ∈ p.2.dependencies,
          ∃ e ∈ dag.edges, e.source = d ∧ e.target = p.1) := by
  rw [build_from_definition, bind_ok_iff] at h
  obtain ⟨dag0, hasm, hval⟩ := h
  have hdag : dag0 = dag := by
    rw [bind_ok_iff] at hval
    obtain ⟨u, _, hok⟩ := hval
    simpa using hok
  subst hdag
  rw [assemble_dag, bind_ok_iff] at hasm
  obtain ⟨g1, hnodes, hasm⟩ := hasm
  rw [bind_ok_iff] at hasm
  obtain ⟨g2, htrans, hdeps⟩ := hasm
  have hedges1 : g1.edges = [] := by
    rw [add_workflow_nodes_edges wf.states ⟨wf.name, [], []⟩ g1 hnodes]
  obtain ⟨_, hedges2⟩ := add_transition_edges_ok wf.states g1 g2 htrans
  rw [hedges1] at hedges2
  simp only [List.nil_append] at hedges2
  obtain ⟨new, he, hdesc, hfresh, hpw, hex⟩ := add_dependency_edges_ok wf.states g2 dag0 hdeps
  rw [hedges2] at he hfresh
  exact ⟨new, he, hdesc, hfresh, hpw, hex⟩

/-- A small workflow exercising transitions, dependencies, and the
deduplication path (state `b` declares dependency `a` twice, and the
transition `a → b` already provides an edge between the pair). -/
def wfSmall : WorkflowDefinition :=
  { name := "demo",
    states :=
      [("a", { name := "a", type := "task", config := [], metadata := [], retries := 0,
               transitions := [⟨"b", none, []⟩], dependencies := [] }),
       ("b", { name := "b", type := "task", config := [], metadata := [], retries := 0,
               transitions := [], dependencies := ["a", "a"] }),
       ("c", { name := "c", type := "task", config := [], metadata := [], retries := 0,
               transitions := [], dependencies := ["b"] })] }

/-- The graph `build_from_definition` produces for `wfSmall`. -/
def dagSmall : DAG :=
  match build_from_definition wfSmall with
  | .ok d => d
  | .error _ => ⟨"", [], []⟩

theorem claim_C2_witness :
    ∃ deps, dagSmall.edges = trans_edges_of wfSmall.states ++ deps
      ∧ (∀ e ∈ deps, e.kind = .precedence
          ∧ ∃ p, p ∈ wfSmall.states ∧ e.target = p.1 ∧ e.source ∈ p.2.dependencies)
      ∧ (∀ e ∈ deps, ∀ e₀ ∈ trans_edges_of wfSmall.states, diff_pair e₀ e)
      ∧ deps.Pairwise diff_pair
      ∧ (∀ p ∈ wfSmall.states, ∀ d ∈ p.2.dependencies,
          ∃ e ∈ dagSmall.edges, e.source = d ∧ e.target = p.1) :=
  claim_C2 wfSmall dagSmall rfl

/-- Claim C4: every graph returned by `build_from_definition` has passed
`validate()` (so it is free of dangling edges and of precedence cycles), and
when the assembled graph has a structural defect, `build_from_definition`
surfaces the corresponding structural error instead of returning a graph. -/
theorem claim_C4 (wf : WorkflowDefinition) :
    (∀ dag, build_from_definition wf = .ok dag →
      dag.validate = .ok () ∧ dag.dangling_free = true ∧ dag.has_cycle = false)
    ∧ (∀ d e, assemble_dag wf = .ok d → d.validate = .error e →
        build_from_definition wf = .error e) := by
  constructor
  · intro dag h
    rw [build_from_definition, bind_ok_iff] at h
    obtain ⟨dag0, hasm, hval⟩ := h
    rw [bind_ok_iff] at hval
    obtain ⟨u, hv, hok⟩ := hval
    have hdag : dag0 = dag := by simpa using hok
    subst hdag
    have hv' : dag0.validate = .ok () := by
      cases u
      exact hv
    refine ⟨hv', ?_, ?_⟩
    · unfold DAG.validate at hv'
      by_cases hdf : dag0.dangling_free
      · exact hdf
      · rw [if_pos (by simp [hdf])] at hv'
        exact absurd hv' (by simp)
    · unfold DAG.validate at hv'
      by_cases hdf : dag0.dangling_free
      · rw [if_neg (by simp [hdf])] at hv'
        by_cases hc : dag0.has_cycle
        · rw [if_pos hc] at hv'
          exact absurd hv' (by simp)
        · simpa using hc
      · rw [if_pos (by simp [hdf])] at hv'
        exact absurd hv' (by simp)
  · intro d e hasm hval
    rw [build_from_definition, hasm]
    simp [Except.bind, hval]

theorem claim_C4_witness :
    dagSmall.validate = .ok ()
    ∧ dagSmall.dangling_free = true
    ∧ dagSmall.has_cycle = false :=
  (claim_C4 wfSmall).1 dagSmall rfl

/-! ## `PluginRegistry` (from `plugins/registry.py`)

The registry holds a plugin mapping and a `_loaded` flag.  Filesystem
discovery (`load_plugins` scanning the plugin directory) is abstracted by the
parameter `avail`: the association list of plugins the scan would
successfully load, in discovery order. -/

structure Registry where
  plugins : List (String × Plugin)
  loaded : Bool

inductive PyError where
  | valueError (msg : String)
  | nameError (n : String)
deriving DecidableEq, Repr

/-- Python dict assignment `self._plugins[name] = plugin`: replace in place if
the key exists, append otherwise. -/
def insert_plugin (m : List (String × Plugin)) (kv : String × Plugin) :
    List (String × Plugin) :=
  if (m.lookup kv.1).isSome then
    m.map (fun p => if p.1 == kv.1 then kv else p)
  else m ++ [kv]

namespace PluginRegistry

/-- `PluginRegistry.load_plugins`: returns immediately when already loaded;
otherwise registers every discoverable plugin and sets `_loaded`. -/
def load_plugins (avail : List (String × Plugin)) (r : Registry) : Registry :=
  if r.loaded then r else { plugins := avail.foldl insert_plugin r.plugins, loaded := true }

/-- `PluginRegistry.get_plugin`: loads on first access, then answers from the
plugin mapping (`self._plugins.get(name)` — `None` when absent). -/
def get_plugin (avail : List (String × Plugin)) (r : Registry) (name : String) :
    Registry × Option Plugin :=
  let r1 := if r.loaded then r else load_plugins avail r
  (r1, r1.plugins.lookup name)

/-- `PluginRegistry.get_state_function`: looks the plugin up via `get_plugin`
and raises `ValueError` when it is absent. -/
def get_state_function (avail : List (String × Plugin)) (r : Registry)
    (plugin_name state_name : String) (config : Config) :
    Registry × Except PyError StateFunc :=
  match get_plugin avail r plugin_name with
  | (r1, none) => (r1, .error (.valueError ("Plugin " ++ plugin_name ++ " not found")))
  | (r1, some p) => (r1, .ok (p.get_state_function state_name config))

structure PluginInfo where
  name : String
  version : String
  description : String
  states : List String

/-- `PluginRegistry.list_plugins`: loads on first access, then summarises
every registered plugin's manifest. -/
def list_plugins (avail : List (String × Plugin)) (r : Registry) :
    Registry × List PluginInfo :=
  let r1 := if r.loaded then r else load_plugins avail r
  (r1, r1.plugins.map (fun p =>
    ⟨p.2.manifest.name, p.2.manifest.version, p.2.manifest.description,
     p.2.manifest.states⟩))

end PluginRegistry

theorem get_state_function_fst (avail : List (String × Plugin)) (r : Registry)
    (pn sn : String) (cfg : Config) :
    (PluginRegistry.get_state_function avail r pn sn cfg).fst
      = (PluginRegistry.get_plugin avail r pn).fst := by
  unfold PluginRegistry.get_state_function
  cases h : PluginRegistry.get_plugin avail r pn with
  | mk r1 po => cases po <;> rfl

theorem get_plugin_fst_loaded (avail : List (String × Plugin)) (r : Registry)
    (n : String) : (PluginRegistry.get_plugin avail r n).fst.loaded = true := by
  obtain ⟨ps₀, b⟩ := r
  cases b <;> rfl

/-- Claim C7: for every plugin name absent from the (loaded) registry mapping,
`PluginRegistry.get_state_function` raises a `ValueError` naming the missing
plugin rather than returning a callable, while `PluginRegistry.get_plugin`
returns `None` for the same name instead of raising. -/
theorem claim_C7 (avail : List (String × Plugin)) (r : Registry)
    (name state_name : String) (config : Config)
    (h : (if r.loaded then r else PluginRegistry.load_plugins avail r).plugins.lookup name
          = none) :
    (PluginRegistry.get_state_function avail r name state_name config).snd
      = .error (.valueError ("Plugin " ++ name ++ " not found"))
    ∧ (PluginRegistry.get_plugin avail r name).snd = none := by
  constructor
  · simp [PluginRegistry.get_state_function, PluginRegistry.get_plugin, h]
  · simp [PluginRegistry.get_plugin, h]

theorem claim_C7_witness :
    (PluginRegistry.get_state_function [] ⟨[], false⟩ "mailer" "send" []).snd
      = .error (.valueError ("Plugin " ++ "mailer" ++ " not found"))
    ∧ (PluginRegistry.get_plugin [] ⟨[], false⟩ "mailer").snd = none :=
  claim_C7 [] ⟨[], false⟩ "mailer" "send" [] rfl

/-- Claim C8: `load_plugins` is load-once: any call on an already-loaded
registry returns it unchanged, so a second call (with any directory contents)
after a first successful load leaves the registry — plugin mapping included —
exactly as the first call left it. -/
theorem claim_C8 (avail avail₂ : List (String × Plugin)) (r : Registry)
    (ps : List (String × Plugin)) :
    PluginRegistry.load_plugins avail₂ (PluginRegistry.load_plugins avail r)
      = PluginRegistry.load_plugins avail r
    ∧ (PluginRegistry.load_plugins avail r).loaded = true
    ∧ PluginRegistry.load_plugins avail ⟨ps, true⟩ = ⟨ps, true⟩ := by
  obtain ⟨ps₀, b⟩ := r
  cases b <;> simp [PluginRegistry.load_plugins]

/-- Claim C10: every read accessor of the registry (`get_plugin`,
`get_state_function`, `list_plugins`) performs a full `load_plugins` pass when
the registry is not loaded yet, every accessor leaves the registry loaded, and
`get_plugin` answers from the post-load mapping — never from an unloaded
registry. -/
theorem claim_C10 (avail : List (String × Plugin)) (ps : List (String × Plugin))
    (n state_name : String) (config : Config) (r : Registry) :
    (PluginRegistry.get_plugin avail ⟨ps, false⟩ n).fst
        = PluginRegistry.load_plugins avail ⟨ps, false⟩
    ∧ (PluginRegistry.get_state_function avail ⟨ps, false⟩ n state_name config).fst
        = PluginRegistry.load_plugins avail ⟨ps, false⟩
    ∧ (PluginRegistry.list_plugins avail ⟨ps, false⟩).fst
        = PluginRegistry.load_plugins avail ⟨ps, false⟩
    ∧ (PluginRegistry.get_plugin avail r n).fst.loaded = true
    ∧ (PluginRegistry.get_state_function avail r n state_name config).fst.loaded = true
    ∧ (PluginRegistry.list_plugins avail r).fst.loaded = true
    ∧ (PluginRegistry.get_plugin avail r n).snd
        = (PluginRegistry.get_plugin avail r n).fst.plugins.lookup n := by
  refine ⟨?_, ?_, ?_, ?_, ?_, ?_, ?_⟩
  · rfl
  · rw [get_state_function_fst]
    rfl
  · rfl
  · exact get_plugin_fst_loaded avail r n
  · rw [get_state_function_fst]
    exact get_plugin_fst_loaded avail r n
  · obtain ⟨ps₀, b⟩ := r
    cases b <;> rfl
  · rfl

/-! ## Name resolution in `plugins/registry.py`

Importing the module executes its top-level statements; creating the
`PluginRegistry` class evaluates each method's signature annotations at
definition time, resolving each name against the module's imported names and
the builtins.  The model lists, per method in source order, the names its
annotations evaluate (left to right). -/

/-- The names bound by the import statements of `plugins/registry.py`:
`import importlib`, `from typing import Dict, Type, Optional`,
`from pathlib import Path`, `import yaml`,
`from core.plugins.base import Plugin, PluginState`. -/
def registry_imports : List String :=
  ["importlib", "Dict", "Type", "Optional", "Path", "yaml", "Plugin", "PluginState"]

/-- Builtin names visible without an import. -/
def py_builtins : List String :=
  ["str", "print", "open", "dir", "getattr", "isinstance", "issubclass",
   "type", "ValueError", "Exception"]

/-- Per method of `PluginRegistry`, in source order, the names its signature
annotations resolve at `def` evaluation time (`__init__` has none; the
attribute annotation inside its body is not evaluated). -/
def method_annotation_names : List (String × List String) :=
  [("load_plugins", ["Path"]),
   ("_load_plugin", ["Path"]),
   ("get_plugin", ["str", "Optional", "Plugin"]),
   ("get_state_function", ["str", "str", "Dict", "str", "Any"]),
   ("list_plugins", ["List", "Dict", "str", "Any"])]

/-- Resolve a list of names against an environment; the first unbound name
raises `NameError`. -/
def resolve_names (env : List String) : List String → Except PyError Unit
  | [] => .ok ()
  | n :: ns => if env.contains n then resolve_names env ns else .error (.nameError n)

def eval_class_body (env : List String) : List (String × List String) → Except PyError Unit
  | [] => .ok ()
  | (_, anns) :: rest =>
    match resolve_names env anns with
    | .ok _ => eval_class_body env rest
    | .error e => .error e

/-- Importing `plugins/registry.py`: evaluating the `PluginRegistry` class
body with the module's imports and the builtins in scope. -/
def registry_import_result : Except PyError Unit :=
  eval_class_body (registry_imports ++ py_builtins) method_annotation_names

/-- Claim C9: `Any` and `List` are never imported in the registry module, so
evaluating the `PluginRegistry` class body raises `NameError` (first at `Any`,
in `get_state_function`'s annotations) and the module cannot be imported
successfully — no caller can ever reach these functions as written. -/
theorem claim_C9 :
    "Any" ∉ registry_imports
    ∧ "List" ∉ registry_imports
    ∧ registry_import_result = .error (.nameError "Any") :=
  ⟨by decide, by decide, by rfl⟩

/-! ## Scheduler models

Modelled from the spec: the concurrent scheduler/executor (spec §4.2) is not
under `src/`; only its contract is specified.  Two aspects are modelled: the
per-node retry loop (§4.2 step 5) and a sequential (`max_concurrent = 1`)
scheduling loop with readiness, dispatch and cascade-skip (§4.2 steps 3, 4
and 6). -/

inductive NStatus where
  | pending
  | succeeded
  | failed
  | skipped
deriving DecidableEq, Repr

/-- Modelled from the spec: the retry loop of §4.2 step 5.  `step a` tells
whether attempt number `a` succeeds.  Starting with the full retry budget,
each dispatch increments the attempt count; on failure the node is re-admitted
(`retrying`) while retries remain, and becomes terminally `failed` once the
budget is exhausted.  The result is the terminal status together with the
total number of dispatched attempts. -/
def run_with_retries_go (step : Nat → Bool) : Nat → Nat → NStatus × Nat
  | 0, attempts =>
    if step (attempts + 1) then (.succeeded, attempts + 1) else (.failed, attempts + 1)
  | r + 1, attempts =>
    if step (attempts + 1) then (.succeeded, attempts + 1)
    else run_with_retries_go step r (attempts + 1)

/-- Execute one node with retry budget `k`: 1 initial attempt plus up to `k`
retries. -/
def run_with_retries (k : Nat) (step : Nat → Bool) : NStatus × Nat :=
  run_with_retries_go step k 0

theorem run_with_retries_go_fail (step : Nat → Bool) (hfail : ∀ a, step a = false) :
    ∀ (r attempts : Nat), run_with_retries_go step r attempts = (.failed, attempts + r + 1) := by
  intro r
  induction r with
  | zero => intro attempts; simp [run_with_retries_go, hfail]
  | succ r ih =>
    intro attempts
    rw [run_with_retries_go, hfail (attempts + 1),
      if_neg (show ¬(false = true) by decide), ih (attempts + 1)]
    refine congrArg _ ?_
    omega

/-- Claim C5: a node with retry budget `k` whose unit of work fails on every
attempt is dispatched exactly `k + 1` times (1 initial attempt plus `k`
retries) and then reaches terminal status `failed` — never fewer and never
more attempts. -/
theorem claim_C5 (k : Nat) (step : Nat → Bool) (hfail : ∀ a, step a = false) :
    run_with_retries k step = (.failed, k + 1) := by
  rw [run_with_retries, run_with_retries_go_fail step hfail k 0]
  refine congrArg _ ?_
  omega

theorem claim_C5_witness : run_with_retries 2 (fun _ => false) = (.failed, 3) :=
  claim_C5 2 (fun _ => false) (fun _ => rfl)

/-- The terminal outcome a node's unit of work produces once dispatched:
failure, or success with a branch result.  (The per-attempt retry loop is
modelled separately by `run_with_retries`; here a dispatch stands for the
whole attempt sequence of one node.) -/
inductive StepOutcome where
  | fails
  | succeeds (b : Branch)

/-- Modelled from the spec: the graph as the scheduler consumes it — node ids
in insertion order, precedence edges and transition edges as
(source, target) pairs (§3, §4.2). -/
structure SchedGraph where
  nodes : List String
  prec : List (String × String)
  trans : List (String × String)

/-- Per-run mutable record: each node's status, each succeeded node's branch
result, and the dispatch history. -/
structure SchedState where
  status : String → NStatus
  branch : String → Branch
  dispatched : List String

def statusIsSucc : NStatus → Bool
  | .succeeded => true
  | _ => false

def statusIsPending : NStatus → Bool
  | .pending => true
  | _ => false

/-- Did this branch result nominate `t`? -/
def nominates (b : Branch) (t : String) : Bool :=
  match b with
  | .noneB => false
  | .oneB x => x == t
  | .manyB xs => xs.contains t

/-- Modelled from the spec: the readiness predicate of §4.2 step 3 — all
incoming precedence edges have a succeeded source, and either the node has no
incoming transition edges at all or at least one succeeded transition
predecessor nominated it. -/
def ready (g : SchedGraph) (st : SchedState) (n : String) : Bool :=
  statusIsPending (st.status n)
  && g.prec.all (fun e => !(e.2 == n) || statusIsSucc (st.status e.1))
  && (let tin := g.trans.filter (fun e => e.2 == n)
      tin.isEmpty || tin.any (fun e =>
        statusIsSucc (st.status e.1) && nominates (st.branch e.1) n))

def upd {α : Type} (f : String → α) (n : String) (v : α) : String → α :=
  fun m => if m = n then v else f m

/-- Dispatch one admitted node: run its unit of work and record the terminal
status (and branch result on success). -/
def dispatch_node (o : String → StepOutcome) (st : SchedState) (n : String) :
    SchedState :=
  match o n with
  | .fails =>
    { st with status := upd st.status n .failed, dispatched := st.dispatched ++ [n] }
  | .succeeds b =>
    { status := upd st.status n .succeeded, branch := upd st.branch n b,
      dispatched := st.dispatched ++ [n] }

/-- Modelled from the spec: the sequential (`max_concurrent = 1`) scheduling
loop of §4.2 step 4 — admit the first ready node in insertion order and
dispatch it; stop when no node is ready. -/
def sched_loop (g : SchedGraph) (o : String → StepOutcome) :
    Nat → SchedState → SchedState
  | 0, st => st
  | fuel + 1, st =>
    match g.nodes.find? (fun n => ready g st n) with
    | some n => sched_loop g o fuel (dispatch_node o st n)
    | none => st

/-- Modelled from the spec: when no further progress is possible, every node
that never became ready is marked `skipped` (§4.2 steps 4 and 6). -/
def finalize (st : SchedState) : SchedState :=
  { st with status := fun m => if statusIsPending (st.status m) then .skipped else st.status m }

def init_state : SchedState :=
  { status := fun _ => .pending, branch := fun _ => .noneB, dispatched := [] }

/-- One full run: every dispatch makes one node terminal, so `|nodes|` loop
iterations exhaust all possible progress; the cascade then skips the rest. -/
def sched_run (g : SchedGraph) (o : String → StepOutcome) : SchedState :=
  finalize (sched_loop g o g.nodes.length init_state)

theorem statusIsPending_iff (s : NStatus) : statusIsPending s = true ↔ s = .pending := by
  cases s <;> simp [statusIsPending]

theorem ready_pending {g : SchedGraph} {st : SchedState} {n : String}
    (h : ready g st n = true) : st.status n = .pending := by
  unfold ready at h
  rw [Bool.and_eq_true, Bool.and_eq_true] at h
  exact (statusIsPending_iff _).mp h.1.1

theorem dispatch_status_other (o : String → StepOutcome) (st : SchedState)
    (n m : String) (hne : m ≠ n) :
    (dispatch_node o st n).status m = st.status m := by
  cases h : o n <;> simp [dispatch_node, h, upd, hne]

theorem dispatch_dispatched (o : String → StepOutcome) (st : SchedState)
    (n : String) : (dispatch_node o st n).dispatched = st.dispatched ++ [n] := by
  cases h : o n <;> simp [dispatch_node, h]

theorem dispatch_keeps_succ {o : String → StepOutcome} {st : SchedState}
    {n m : String} (hn : st.status n = .pending) (hm : st.status m = .succeeded) :
    (dispatch_node o st n).status m = .succeeded := by
  have hne : m ≠ n := by
    intro he
    rw [he, hn] at hm
    cases hm
  rw [dispatch_status_other o st n m hne]
  exact hm

theorem ready_false (g : SchedGraph) (st : SchedState) (n p : String)
    (hp : (p, n) ∈ g.prec) (hns : statusIsSucc (st.status p) = false) :
    ready g st n = false := by
  rw [Bool.eq_false_iff]
  intro h
  unfold ready at h
  rw [Bool.and_eq_true, Bool.and_eq_true] at h
  obtain ⟨⟨_, hall⟩, _⟩ := h
  rw [List.all_eq_true] at hall
  have hpair := hall (p, n) hp
  simp [hns] at hpair

theorem sched_inv (g : SchedGraph) (o : String → StepOutcome) (n p : String)
    (hp : (p, n) ∈ g.prec) :
    ∀ (fuel : Nat) (st : SchedState),
    (st.status p = .succeeded ∨ (st.status n = .pending ∧ n ∉ st.dispatched)) →
    ((sched_loop g o fuel st).status p = .succeeded
      ∨ ((sched_loop g o fuel st).status n = .pending
          ∧ n ∉ (sched_loop g o fuel st).dispatched)) := by
  intro fuel
  induction fuel with
  | zero => intro st h; exact h
  | succ fuel ih =>
    intro st h
    rw [sched_loop]
    cases hf : g.nodes.find? (fun m => ready g st m) with
    | none => exact h
    | some m =>
      have hready : ready g st m = true := List.find?_some hf
      have hmpend : st.status m = .pending := ready_pending hready
      by_cases hps : st.status p = .succeeded
      · exact ih (dispatch_node o st m) (Or.inl (dispatch_keeps_succ hmpend hps))
      · rcases h with hsucc | ⟨hn, hnd⟩
        · exact absurd hsucc hps
        · have hns : statusIsSucc (st.status p) = false := by
            cases hsp : st.status p
            · rfl
            · exact absurd hsp hps
            · rfl
            · rfl
          have hready_n : ready g st n = false := ready_false g st n p hp hns
          have hne : m ≠ n := by
            intro he
            rw [he, hready_n] at hready
            cases hready
          refine ih (dispatch_node o st m) (Or.inr ⟨?_, ?_⟩)
          · rw [dispatch_status_other o st m n (Ne.symm hne)]
            exact hn
          · rw [dispatch_dispatched]
            intro hmem
            rcases List.mem_append.mp hmem with h1 | h2
            · exact hnd h1
            · exact hne (List.mem_singleton.mp h2).symm

/-- Claim C6: in every sequential execution, a node `n` whose only precedence
predecessor `p` reaches terminal `failed`, and which has no incoming
transition edges that could offer an alternative path to readiness, ends the
run in status `skipped` and is never dispatched. -/
theorem claim_C6 (g : SchedGraph) (o : String → StepOutcome) (n p : String)
    (hfilter : g.prec.filter (fun e => e.2 == n) = [(p, n)])
    (_htrans : g.trans.filter (fun e => e.2 == n) = [])
    (hfail : (sched_run g o).status p = .failed) :
    (sched_run g o).status n = .skipped ∧ n ∉ (sched_run g o).dispatched := by
  have hp : (p, n) ∈ g.prec := by
    have hmem : (p, n) ∈ g.prec.filter (fun e => e.2 == n) := by
      rw [hfilter]
      exact List.mem_singleton.mpr rfl
    exact (List.mem_filter.mp hmem).1
  have hinv := sched_inv g o n p hp g.nodes.length init_state
    (Or.inr ⟨rfl, List.not_mem_nil n⟩)
  rcases hinv with hsucc | ⟨hn, hnd⟩
  · exfalso
    unfold sched_run finalize at hfail
    simp only at hfail
    rw [hsucc] at hfail
    simp [statusIsPending] at hfail
  · constructor
    · unfold sched_run finalize
      simp only
      rw [hn]
      rfl
    · exact hnd

def gCascade : SchedGraph := ⟨["A", "B"], [("A", "B")], []⟩

def oFail : String → StepOutcome := fun _ => .fails

theorem claim_C6_witness :
    (sched_run gCascade oFail).status "B" = .skipped
    ∧ "B" ∉ (sched_run gCascade oFail).dispatched :=
  claim_C6 gCascade oFail "B" "A" (by rfl) rfl (by rfl)
